/-
Verification of the fuzzy irrigation engine (src/nucleo/motor_difuso.py).

The engine code itself (membership shapes, the 33-rule table, the rule
activation map, plant adjustment, clamping, rounding, the result cache and
the confidence estimator) is embedded directly from the source.  The
Mamdani implication/aggregation/centroid pipeline is executed by the
external skfuzzy control library at `self._sim.compute()`; that part is
modelled from the specification (section 4.3: clip the consequent
set of each rule at its firing strength, aggregate pointwise by max, defuzzify by
`crisp = (sum of x*mu(x)) / (sum of mu(x))` over the discretized domain,
with the degenerate all-zero case mapped to the safe-default fallback).

Real numbers are embedded as exact rationals; the Python builtin `round`
(banker rounding) is embedded as round-half-to-even on rationals; the Python dicts
(the result cache and the activation map, both insertion-ordered) are
embedded as association lists whose head is the oldest entry.
-/
import Mathlib

set_option maxRecDepth 40000
set_option maxHeartbeats 16000000

section FuzzyIrrigation

attribute [local semireducible] Rat.add Rat.mul Rat.inv Rat.sub

/-- Trapezoidal membership function with breakpoints `a ≤ b ≤ c ≤ d`
(skfuzzy `trapmf`; `trimf [a,b,c]` is the special case `b = c`).  The
discretized arrays built by `fuzz.trapmf`/`fuzz.trimf` agree with this
analytic form at every universe grid point because every breakpoint used in
`_build_system` lies on its universe grid. -/
def trapmfQ (a b c d x : ℚ) : ℚ :=
  if x < a then 0
  else if x < b then (x - a) / (b - a)
  else if x ≤ c then 1
  else if x < d then (d - x) / (d - c)
  else 0

/-- Membership degree as computed by `fuzz.interp_membership` on a universe
`[lo, hi]`: linear interpolation of the discretized membership array, which
clamps the query point to the universe bounds (flat extrapolation). -/
def membQ (lo hi a b c d x : ℚ) : ℚ := trapmfQ a b c d (max lo (min hi x))

/-- Membership degrees of the five crisp readings in all fifteen antecedent
fuzzy sets — the `deg` dictionary of `get_rule_activations`. -/
structure Degs where
  t_baja : ℚ
  t_media : ℚ
  t_alta : ℚ
  s_seca : ℚ
  s_moderada : ℚ
  s_humeda : ℚ
  l_baja : ℚ
  l_media : ℚ
  l_alta : ℚ
  a_baja : ℚ
  a_media : ℚ
  a_alta : ℚ
  v_bajo : ℚ
  v_medio : ℚ
  v_alto : ℚ
deriving DecidableEq

/-- The `deg` dictionary: membership of each reading in each antecedent set,
with the shape parameters of `_build_system` (temperature and wind on
`[0,50]`, the three percentages on `[0,100]`; `temperatura["media"]` is the
triangle `trimf [15, 22.5, 30]`). -/
def mkDegs (temperature soil_humidity rain_probability air_humidity wind_speed : ℚ) : Degs where
  t_baja := membQ 0 50 0 0 10 20 temperature
  t_media := membQ 0 50 15 (45/2) (45/2) 30 temperature
  t_alta := membQ 0 50 25 30 50 50 temperature
  s_seca := membQ 0 100 0 0 15 30 soil_humidity
  s_moderada := membQ 0 100 20 35 45 60 soil_humidity
  s_humeda := membQ 0 100 50 70 100 100 soil_humidity
  l_baja := membQ 0 100 0 0 15 30 rain_probability
  l_media := membQ 0 100 20 35 45 60 rain_probability
  l_alta := membQ 0 100 50 70 100 100 rain_probability
  a_baja := membQ 0 100 0 0 20 40 air_humidity
  a_media := membQ 0 100 30 45 55 70 air_humidity
  a_alta := membQ 0 100 60 80 100 100 air_humidity
  v_bajo := membQ 0 50 0 0 8 15 wind_speed
  v_medio := membQ 0 50 10 18 25 30 wind_speed
  v_alto := membQ 0 50 25 35 50 50 wind_speed

def actR1 (d : Degs) : ℚ := d.l_alta
def actR2 (d : Degs) : ℚ := min d.s_humeda d.l_alta
def actR3 (d : Degs) : ℚ := min d.s_seca d.l_baja
def actR4 (d : Degs) : ℚ := min d.t_alta d.s_seca
def actR5 (d : Degs) : ℚ := min d.a_baja d.s_seca
def actR6 (d : Degs) : ℚ := min d.s_seca d.v_alto
def actR7 (d : Degs) : ℚ := min (min (min d.s_seca d.t_alta) d.l_baja) d.v_alto
def actR8 (d : Degs) : ℚ := d.s_humeda
def actR9 (d : Degs) : ℚ := min d.t_baja d.a_alta
def actR10 (d : Degs) : ℚ := min d.s_moderada d.l_media
def actR11 (d : Degs) : ℚ := min d.a_alta d.l_media
def actR12 (d : Degs) : ℚ := min d.t_baja d.l_alta
def actR13 (d : Degs) : ℚ := min d.v_alto d.t_alta
def actR14 (d : Degs) : ℚ := min d.v_alto d.l_baja
def actR15 (d : Degs) : ℚ := min d.t_alta d.v_medio
def actR16 (d : Degs) : ℚ := min d.a_baja d.v_alto
def actR17 (d : Degs) : ℚ := min d.t_media d.s_moderada
def actR18 (d : Degs) : ℚ := min (min d.t_alta d.a_baja) d.v_bajo
def actR19 (d : Degs) : ℚ := min d.s_moderada d.v_bajo
def actR20 (d : Degs) : ℚ := min d.a_media d.l_baja
def actR21 (d : Degs) : ℚ := min d.t_media d.l_baja
def actR22 (d : Degs) : ℚ := min d.v_bajo d.l_baja
def actR23 (d : Degs) : ℚ := min (min d.t_media d.a_media) d.l_media
def actR24 (d : Degs) : ℚ := min d.t_baja d.s_moderada
def actR25 (d : Degs) : ℚ := min d.l_media d.v_medio
def actR26 (d : Degs) : ℚ := min (min d.t_alta d.l_media) d.v_alto
def actR27 (d : Degs) : ℚ := min (min d.t_media d.a_baja) d.s_seca
def actR28 (d : Degs) : ℚ := min d.t_alta d.a_alta
def actR29 (d : Degs) : ℚ := min (min d.s_seca d.a_baja) d.l_media
def actR30 (d : Degs) : ℚ := min (min d.s_moderada d.a_alta) d.l_baja
def actR31 (d : Degs) : ℚ := min d.s_humeda d.t_alta
def actR32 (d : Degs) : ℚ := min d.v_alto d.a_baja
def actR33 (d : Degs) : ℚ := min d.v_bajo d.a_alta

/-- The activation map built by `get_rule_activations`: the firing strength
of each of the 33 rules (minimum of the membership degrees of the antecedent
clauses of the rule), keyed by rule id in insertion order R1..R33. -/
def get_rule_activations (temperature soil_humidity rain_probability air_humidity wind_speed : ℚ) :
    List (String × ℚ) :=
  let d := mkDegs temperature soil_humidity rain_probability air_humidity wind_speed
  [("R1", actR1 d), ("R2", actR2 d), ("R3", actR3 d), ("R4", actR4 d),
   ("R5", actR5 d), ("R6", actR6 d), ("R7", actR7 d), ("R8", actR8 d),
   ("R9", actR9 d), ("R10", actR10 d), ("R11", actR11 d), ("R12", actR12 d),
   ("R13", actR13 d), ("R14", actR14 d), ("R15", actR15 d), ("R16", actR16 d),
   ("R17", actR17 d), ("R18", actR18 d), ("R19", actR19 d), ("R20", actR20 d),
   ("R21", actR21 d), ("R22", actR22 d), ("R23", actR23 d), ("R24", actR24 d),
   ("R25", actR25 d), ("R26", actR26 d), ("R27", actR27 d), ("R28", actR28 d),
   ("R29", actR29 d), ("R30", actR30 d), ("R31", actR31 d), ("R32", actR32 d),
   ("R33", actR33 d)]

/-- Consequent membership functions of `tiempo` (irrigation duration). -/
def muTnulo (x : ℚ) : ℚ := trapmfQ 0 0 3 5 x
def muTcorto (x : ℚ) : ℚ := trapmfQ 3 8 15 20 x
def muTmedio (x : ℚ) : ℚ := trapmfQ 15 22 33 40 x
def muTlargo (x : ℚ) : ℚ := trapmfQ 35 45 60 60 x

/-- Consequent membership functions of `frecuencia` (irrigation frequency). -/
def muFbaja (x : ℚ) : ℚ := trapmfQ (1/2) (3/4) (5/4) (3/2) x
def muFmedia (x : ℚ) : ℚ := trapmfQ 1 (3/2) 2 (5/2) x
def muFalta (x : ℚ) : ℚ := trapmfQ 2 (5/2) (7/2) 4 x

/-- Grid point `i` of `TIME_UNIVERSE = np.linspace(0, 60, 601)`. -/
def timePt (i : ℕ) : ℚ := 60 * i / 600

/-- Grid point `i` of `FREQ_UNIVERSE = np.linspace(0, 4, 401)`. -/
def freqPt (i : ℕ) : ℚ := 4 * i / 400

/-- Modelled from the spec: sum of `f 0, …, f (n-1)`, the `Σ` of the
centroid formula over the discretized consequent domain. -/
def gridSum (f : ℕ → ℚ) : ℕ → ℚ
  | 0 => 0
  | n + 1 => gridSum f n + f n

/-- Modelled from the spec: aggregated output membership for `tiempo` at a
point of its domain — each rule that assigns `tiempo` contributes its named
fuzzy set clipped (min) at the firing strength of the rule, and the contributions
are combined pointwise by max (rules in source order). -/
def aggTime (d : Degs) (x : ℚ) : ℚ :=
  max (min (actR1 d) (muTnulo x)) <| max (min (actR2 d) (muTnulo x)) <|
  max (min (actR3 d) (muTlargo x)) <| max (min (actR4 d) (muTlargo x)) <|
  max (min (actR5 d) (muTlargo x)) <| max (min (actR6 d) (muTlargo x)) <|
  max (min (actR7 d) (muTlargo x)) <| max (min (actR8 d) (muTcorto x)) <|
  max (min (actR9 d) (muTcorto x)) <| max (min (actR10 d) (muTcorto x)) <|
  max (min (actR11 d) (muTcorto x)) <| max (min (actR12 d) (muTnulo x)) <|
  max (min (actR17 d) (muTmedio x)) <| max (min (actR18 d) (muTlargo x)) <|
  max (min (actR20 d) (muTmedio x)) <| max (min (actR23 d) (muTmedio x)) <|
  max (min (actR24 d) (muTcorto x)) <| max (min (actR26 d) (muTmedio x)) <|
  max (min (actR27 d) (muTlargo x)) <| max (min (actR29 d) (muTmedio x)) <|
  max (min (actR30 d) (muTmedio x)) <| min (actR32 d) (muTmedio x)

/-- Modelled from the spec: aggregated output membership for `frecuencia`
at a point of its domain (rules in source order). -/
def aggFreq (d : Degs) (x : ℚ) : ℚ :=
  max (min (actR2 d) (muFbaja x)) <| max (min (actR3 d) (muFalta x)) <|
  max (min (actR5 d) (muFalta x)) <| max (min (actR7 d) (muFalta x)) <|
  max (min (actR8 d) (muFbaja x)) <| max (min (actR13 d) (muFalta x)) <|
  max (min (actR14 d) (muFalta x)) <| max (min (actR15 d) (muFalta x)) <|
  max (min (actR16 d) (muFalta x)) <| max (min (actR19 d) (muFmedia x)) <|
  max (min (actR21 d) (muFmedia x)) <| max (min (actR22 d) (muFmedia x)) <|
  max (min (actR23 d) (muFmedia x)) <| max (min (actR25 d) (muFmedia x)) <|
  max (min (actR28 d) (muFmedia x)) <| max (min (actR31 d) (muFmedia x)) <|
  min (actR33 d) (muFbaja x)

/-- Accumulated cut of the `tiempo["nulo"]` term: max of the firing
strengths of the rules assigning it (R1, R2, R12). -/
def cutTnulo (d : Degs) : ℚ := max (actR1 d) (max (actR2 d) (actR12 d))

def cutTcorto (d : Degs) : ℚ :=
  max (actR8 d) (max (actR9 d) (max (actR10 d) (max (actR11 d) (actR24 d))))

def cutTmedio (d : Degs) : ℚ :=
  max (actR17 d) (max (actR20 d) (max (actR23 d)
    (max (actR26 d) (max (actR29 d) (max (actR30 d) (actR32 d))))))

def cutTlargo (d : Degs) : ℚ :=
  max (actR3 d) (max (actR4 d) (max (actR5 d)
    (max (actR6 d) (max (actR7 d) (max (actR18 d) (actR27 d))))))

def cutFbaja (d : Degs) : ℚ := max (actR2 d) (max (actR8 d) (actR33 d))

def cutFmedia (d : Degs) : ℚ :=
  max (actR19 d) (max (actR21 d) (max (actR22 d)
    (max (actR23 d) (max (actR25 d) (max (actR28 d) (actR31 d))))))

def cutFalta (d : Degs) : ℚ :=
  max (actR3 d) (max (actR5 d) (max (actR7 d)
    (max (actR13 d) (max (actR14 d) (max (actR15 d) (actR16 d))))))

/-- The `tiempo` aggregate grouped per consequent term (as the skfuzzy
control pipeline accumulates it); equal to `aggTime` by distributivity of
min over max — see `aggTime_eq_cuts`. -/
def aggTimeCuts (d : Degs) (x : ℚ) : ℚ :=
  max (min (cutTnulo d) (muTnulo x)) <|
  max (min (cutTcorto d) (muTcorto x)) <|
  max (min (cutTmedio d) (muTmedio x)) <|
  min (cutTlargo d) (muTlargo x)

/-- The `frecuencia` aggregate grouped per consequent term; equal to
`aggFreq` — see `aggFreq_eq_cuts`. -/
def aggFreqCuts (d : Degs) (x : ℚ) : ℚ :=
  max (min (cutFbaja d) (muFbaja x)) <|
  max (min (cutFmedia d) (muFmedia x)) <|
  min (cutFalta d) (muFalta x)

theorem aggTime_eq_cuts (d : Degs) (x : ℚ) : aggTime d x = aggTimeCuts d x := by
  unfold aggTime aggTimeCuts cutTnulo cutTcorto cutTmedio cutTlargo
  simp only [min_max_distrib_right]
  ac_rfl

theorem aggFreq_eq_cuts (d : Degs) (x : ℚ) : aggFreq d x = aggFreqCuts d x := by
  unfold aggFreq aggFreqCuts cutFbaja cutFmedia cutFalta
  simp only [min_max_distrib_right]
  ac_rfl

/-- Modelled from the spec: centroid defuzzification
`crisp = (Σ x·μ(x)) / (Σ μ(x))` over the `n`-point discretized domain,
returning `none` in the degenerate case `Σ μ(x) = 0` (the case the source
maps to its safe-default fallback). -/
def centroidQ (n : ℕ) (pt : ℕ → ℚ) (μ : ℚ → ℚ) : Option ℚ :=
  if gridSum (fun i => μ (pt i)) n = 0 then none
  else some (gridSum (fun i => pt i * μ (pt i)) n / gridSum (fun i => μ (pt i)) n)

/-- Modelled from the spec: the crisp `(tiempo, frecuencia)` pair produced
by `self._sim.compute()` (steps 3-5 of the inference pipeline, executed by
the external skfuzzy library and absent from `src/`); `none` when the
aggregated curve of either consequent is identically zero, surfaced in the
source as a missing output key or a raised exception. -/
def simCompute (temperature soil_humidity rain_probability air_humidity wind_speed : ℚ) :
    Option (ℚ × ℚ) :=
  match centroidQ 601 timePt (aggTime (mkDegs temperature soil_humidity rain_probability air_humidity wind_speed)),
        centroidQ 401 freqPt (aggFreq (mkDegs temperature soil_humidity rain_probability air_humidity wind_speed)) with
  | some ct, some cf => some (ct, cf)
  | _, _ => none

/-- Round-half-to-even to the nearest integer (the rounding mode of
the Python builtin `round`). -/
def rndHE (q : ℚ) : ℤ :=
  if q - ⌊q⌋ < 1/2 then ⌊q⌋
  else if 1/2 < q - ⌊q⌋ then ⌊q⌋ + 1
  else if 2 ∣ ⌊q⌋ then ⌊q⌋ else ⌊q⌋ + 1

/-- Python `round(q, 1)`. -/
def round1 (q : ℚ) : ℚ := (rndHE (q * 10) : ℚ) / 10

/-- Python `round(q, 2)`. -/
def round2 (q : ℚ) : ℚ := (rndHE (q * 100) : ℚ) / 100

/-- Result triple of `calculate_irrigation`:
`(tiempo_min, frecuencia, activaciones)`. -/
abbrev OutT : Type := ℚ × ℚ × List (String × ℚ)

/-- Cache key: the five readings rounded to 0.1 and the plant adjustment
rounded to 0.01. -/
abbrev CacheKey : Type := ℚ × ℚ × ℚ × ℚ × ℚ × ℚ

/-- The `_cache` dict: insertion-ordered association list, head oldest. -/
abbrev Cache : Type := List (CacheKey × OutT)

/-- The `cache_key` tuple built at the top of `calculate_irrigation`. -/
def quantKey (temperature soil_humidity rain_probability air_humidity wind_speed ajuste_planta : ℚ) :
    CacheKey :=
  (round1 temperature, round1 soil_humidity, round1 rain_probability,
   round1 air_humidity, round1 wind_speed, round2 ajuste_planta)

/-- Dict lookup `self._cache[cache_key]`. -/
def cacheLookup (k : CacheKey) : Cache → Option OutT
  | [] => none
  | (k2, v) :: rest => if k = k2 then some v else cacheLookup k rest

/-- Lines 208-218 of the source: clamp the plant adjustment to `[0.3, 1.5]`,
scale the raw crisp outputs (`tiempo_raw * ajuste` and
`frecuencia_raw * (0.85 + 0.3 * ajuste)`), clamp the products to `[0, 60]`
and `[0.5, 4]`, and round to 2 decimals.  Decimal literals of the source
are written as fractions (`0.3 = 3/10`, `1.5 = 3/2`, `0.85 = 85/100`,
`0.5 = 1/2`). -/
def applyAdjust (tiempo_raw frecuencia_raw ajuste_planta : ℚ) : ℚ × ℚ :=
  (round2 (max 0 (min 60 (tiempo_raw * (max (3/10) (min (3/2) ajuste_planta))))),
   round2 (max (1/2) (min 4 (frecuencia_raw *
     (85/100 + 3/10 * (max (3/10) (min (3/2) ajuste_planta)))))))

/-- The public entry point `calculate_irrigation`, embedded with explicit
cache state passing: quantize the inputs into a cache key; on a hit return
the stored triple unchanged; otherwise run the fuzzy pipeline — if it
yields no output pair, return the safe default `(15, 2, {})` leaving the
cache untouched; otherwise adjust/clamp/round the raw outputs, pair them
with `get_rule_activations` on the same readings, evict the oldest cache
entry when the cache already holds 100 entries, and append the new entry. -/
def calculate_irrigation (cache : Cache)
    (temperature soil_humidity rain_probability air_humidity wind_speed ajuste_planta : ℚ) :
    OutT × Cache :=
  match cacheLookup (quantKey temperature soil_humidity rain_probability air_humidity wind_speed ajuste_planta) cache with
  | some res => (res, cache)
  | none =>
    match simCompute temperature soil_humidity rain_probability air_humidity wind_speed with
    | none => ((15, 2, []), cache)
    | some (tiempo_raw, frecuencia_raw) =>
      (((applyAdjust tiempo_raw frecuencia_raw ajuste_planta).1,
        (applyAdjust tiempo_raw frecuencia_raw ajuste_planta).2,
        get_rule_activations temperature soil_humidity rain_probability air_humidity wind_speed),
       (if 100 ≤ cache.length then cache.tail else cache) ++
         [(quantKey temperature soil_humidity rain_probability air_humidity wind_speed ajuste_planta,
           ((applyAdjust tiempo_raw frecuencia_raw ajuste_planta).1,
            (applyAdjust tiempo_raw frecuencia_raw ajuste_planta).2,
            get_rule_activations temperature soil_humidity rain_probability air_humidity wind_speed))])

/-- The confidence estimator of the engine, `_calculate_confidence`: 0 for an
empty activation map, otherwise
`round(0.6 * max_act + 0.4 * reglas_fuertes / len, 2)` where
`reglas_fuertes` counts activations strictly above 0.5. -/
def calculate_confidence (activaciones : List (String × ℚ)) : ℚ :=
  match activaciones.map Prod.snd with
  | [] => 0
  | v :: vs =>
    round2 ((6/10) * ((v :: vs).foldl max v) +
      (4/10) * (((v :: vs).filter (fun u => decide (1/2 < u))).length : ℚ) / ((v :: vs).length : ℚ))

/-- Policy A of the spec, written from its words:
`confidence = 0.6·max(activations) + 0.4·(card of values above 0.5 / N)`,
rounded to 2 decimals, and 0 on the empty map. -/
def policyA (activations : List ℚ) : ℚ :=
  match activations with
  | [] => 0
  | v :: vs =>
    round2 ((6/10) * ((v :: vs).foldl max v) +
      (4/10) * (((v :: vs).filter (fun u => decide (1/2 < u))).length : ℚ) / ((v :: vs).length : ℚ))

/-- Clamp of the adjustment formula of the spec (section 4.4). -/
def specClamp (lo hi x : ℚ) : ℚ := max lo (min hi x)

/-- Balanced binary summation: `sumPow2 f lo k` is the sum of `f` over the
`2 ^ k` indices starting at `lo`.  Used to evaluate `gridSum` without deep
recursion. -/
def sumPow2 (f : ℕ → ℚ) : ℕ → ℕ → ℚ
  | lo, 0 => f lo
  | lo, k + 1 => sumPow2 f lo k + sumPow2 f (lo + 2 ^ k) k

/-- Bounds required of a result triple: duration in `[0, 60]`, frequency in
`[0.5, 4]`. -/
def OutOK (o : OutT) : Prop := 0 ≤ o.1 ∧ o.1 ≤ 60 ∧ 1/2 ≤ o.2.1 ∧ o.2.1 ≤ 4

/-- Every triple stored in the cache satisfies `OutOK`. -/
def CacheOK (c : Cache) : Prop := ∀ e ∈ c, OutOK e.2

/-- The 33 rule identifiers, in the order `get_rule_activations` inserts
them. -/
def ruleIds : List String :=
  ["R1", "R2", "R3", "R4", "R5", "R6", "R7", "R8", "R9", "R10", "R11",
   "R12", "R13", "R14", "R15", "R16", "R17", "R18", "R19", "R20", "R21",
   "R22", "R23", "R24", "R25", "R26", "R27", "R28", "R29", "R30", "R31",
   "R32", "R33"]

theorem trapmfQ_nonneg (a b c d x : ℚ) : 0 ≤ trapmfQ a b c d x := by
  unfold trapmfQ
  split_ifs with h1 h2 h3 h4
  · exact le_refl 0
  · have hab : 0 < b - a := by push_neg at h1; linarith
    have hxa : 0 ≤ x - a := by push_neg at h1; linarith
    positivity
  · exact zero_le_one
  · have hcd : 0 < d - c := by push_neg at h3; linarith
    have hxd : 0 ≤ d - x := by linarith
    positivity
  · exact le_refl 0

theorem trapmfQ_le_one (a b c d x : ℚ) : trapmfQ a b c d x ≤ 1 := by
  unfold trapmfQ
  split_ifs with h1 h2 h3 h4
  · exact zero_le_one
  · have hab : 0 < b - a := by push_neg at h1; linarith
    rw [div_le_one hab]
    linarith
  · exact le_refl 1
  · have hcd : 0 < d - c := by push_neg at h3; linarith
    rw [div_le_one hcd]
    linarith
  · exact zero_le_one

theorem membQ_nonneg (lo hi a b c d x : ℚ) : 0 ≤ membQ lo hi a b c d x :=
  trapmfQ_nonneg a b c d _

theorem membQ_le_one (lo hi a b c d x : ℚ) : membQ lo hi a b c d x ≤ 1 :=
  trapmfQ_le_one a b c d _

theorem min_mem01 {a b : ℚ} (ha : 0 ≤ a ∧ a ≤ 1) (hb : 0 ≤ b ∧ b ≤ 1) :
    0 ≤ min a b ∧ min a b ≤ 1 :=
  ⟨le_min ha.1 hb.1, le_trans (min_le_left a b) ha.2⟩

/-- Every field of the `deg` record is a membership value in `[0,1]`. -/
theorem mkDegs_mem01 (t s r a w : ℚ) :
    (0 ≤ (mkDegs t s r a w).t_baja ∧ (mkDegs t s r a w).t_baja ≤ 1) ∧
    (0 ≤ (mkDegs t s r a w).t_media ∧ (mkDegs t s r a w).t_media ≤ 1) ∧
    (0 ≤ (mkDegs t s r a w).t_alta ∧ (mkDegs t s r a w).t_alta ≤ 1) ∧
    (0 ≤ (mkDegs t s r a w).s_seca ∧ (mkDegs t s r a w).s_seca ≤ 1) ∧
    (0 ≤ (mkDegs t s r a w).s_moderada ∧ (mkDegs t s r a w).s_moderada ≤ 1) ∧
    (0 ≤ (mkDegs t s r a w).s_humeda ∧ (mkDegs t s r a w).s_humeda ≤ 1) ∧
    (0 ≤ (mkDegs t s r a w).l_baja ∧ (mkDegs t s r a w).l_baja ≤ 1) ∧
    (0 ≤ (mkDegs t s r a w).l_media ∧ (mkDegs t s r a w).l_media ≤ 1) ∧
    (0 ≤ (mkDegs t s r a w).l_alta ∧ (mkDegs t s r a w).l_alta ≤ 1) ∧
    (0 ≤ (mkDegs t s r a w).a_baja ∧ (mkDegs t s r a w).a_baja ≤ 1) ∧
    (0 ≤ (mkDegs t s r a w).a_media ∧ (mkDegs t s r a w).a_media ≤ 1) ∧
    (0 ≤ (mkDegs t s r a w).a_alta ∧ (mkDegs t s r a w).a_alta ≤ 1) ∧
    (0 ≤ (mkDegs t s r a w).v_bajo ∧ (mkDegs t s r a w).v_bajo ≤ 1) ∧
    (0 ≤ (mkDegs t s r a w).v_medio ∧ (mkDegs t s r a w).v_medio ≤ 1) ∧
    (0 ≤ (mkDegs t s r a w).v_alto ∧ (mkDegs t s r a w).v_alto ≤ 1) := by
  unfold mkDegs
  refine ⟨?_, ?_, ?_, ?_, ?_, ?_, ?_, ?_, ?_, ?_, ?_, ?_, ?_, ?_, ?_⟩ <;>
    exact ⟨membQ_nonneg _ _ _ _ _ _ _, membQ_le_one _ _ _ _ _ _ _⟩

theorem gridSum_add (f : ℕ → ℚ) (m n : ℕ) :
    gridSum f (m + n) = gridSum f m + gridSum (fun j => f (m + j)) n := by
  induction n with
  | zero => simp [gridSum]
  | succ n ih =>
    have h1 : m + (n + 1) = (m + n) + 1 := by ring
    rw [h1]
    show gridSum f (m + n) + f (m + n) = _
    rw [ih]
    show _ = gridSum f m + (gridSum (fun j => f (m + j)) n + f (m + n))
    ring

theorem sumPow2_eq (f : ℕ → ℚ) (k : ℕ) : ∀ lo : ℕ,
    sumPow2 f lo k = gridSum (fun j => f (lo + j)) (2 ^ k) := by
  induction k with
  | zero =>
    intro lo
    show f lo = gridSum (fun j => f (lo + j)) 1
    show f lo = 0 + f (lo + 0)
    simp
  | succ k ih =>
    intro lo
    show sumPow2 f lo k + sumPow2 f (lo + 2 ^ k) k = _
    have h2 : 2 ^ (k + 1) = 2 ^ k + 2 ^ k := by rw [pow_succ]; ring
    rw [h2, gridSum_add, ih lo, ih (lo + 2 ^ k)]
    congr 1
    apply congrArg (gridSum · (2 ^ k))
    funext j
    rw [Nat.add_assoc]

theorem gridSum_shift_eq (f : ℕ → ℚ) : gridSum (fun j => f (0 + j)) = gridSum f := by
  apply congrArg
  funext j
  rw [Nat.zero_add]

/-- Evaluation form of the 601-point sum: `512 + 64 + 16 + 8 + 1`. -/
theorem gridSum601 (f : ℕ → ℚ) :
    gridSum f 601 = sumPow2 f 0 9 + sumPow2 f 512 6 + sumPow2 f 576 4 + sumPow2 f 592 3 + f 600 := by
  have e0 : (601 : ℕ) = 600 + 1 := by norm_num
  have h600 : gridSum f 601 = gridSum f 600 + f 600 := by rw [e0]; rfl
  have e1 : (600 : ℕ) = 592 + 8 := by norm_num
  have e2 : (592 : ℕ) = 576 + 16 := by norm_num
  have e3 : (576 : ℕ) = 512 + 64 := by norm_num
  have h592 : gridSum f 600 = gridSum f 592 + sumPow2 f 592 3 := by
    rw [e1, gridSum_add, sumPow2_eq]; norm_num
  have h576 : gridSum f 592 = gridSum f 576 + sumPow2 f 576 4 := by
    rw [e2, gridSum_add, sumPow2_eq]; norm_num
  have h512 : gridSum f 576 = gridSum f 512 + sumPow2 f 512 6 := by
    rw [e3, gridSum_add, sumPow2_eq]; norm_num
  have h0 : gridSum f 512 = sumPow2 f 0 9 := by
    rw [sumPow2_eq, gridSum_shift_eq]; norm_num
  rw [h600, h592, h576, h512, h0]

/-- Evaluation form of the 401-point sum: `256 + 128 + 16 + 1`. -/
theorem gridSum401 (f : ℕ → ℚ) :
    gridSum f 401 = sumPow2 f 0 8 + sumPow2 f 256 7 + sumPow2 f 384 4 + f 400 := by
  have e0 : (401 : ℕ) = 400 + 1 := by norm_num
  have h400 : gridSum f 401 = gridSum f 400 + f 400 := by rw [e0]; rfl
  have e1 : (400 : ℕ) = 384 + 16 := by norm_num
  have e2 : (384 : ℕ) = 256 + 128 := by norm_num
  have h384 : gridSum f 400 = gridSum f 384 + sumPow2 f 384 4 := by
    rw [e1, gridSum_add, sumPow2_eq]; norm_num
  have h256 : gridSum f 384 = gridSum f 256 + sumPow2 f 256 7 := by
    rw [e2, gridSum_add, sumPow2_eq]; norm_num
  have h0 : gridSum f 256 = sumPow2 f 0 8 := by
    rw [sumPow2_eq, gridSum_shift_eq]; norm_num
  rw [h400, h384, h256, h0]

theorem gridSum_zero_fn (n : ℕ) : gridSum (fun _ => (0 : ℚ)) n = 0 := by
  induction n with
  | zero => rfl
  | succ n ih => show gridSum (fun _ => (0:ℚ)) n + 0 = 0; rw [ih]; ring

theorem rndHE_cases (q : ℚ) : rndHE q = ⌊q⌋ ∨ rndHE q = ⌊q⌋ + 1 := by
  unfold rndHE
  split_ifs <;> simp

theorem le_rndHE {m : ℤ} {q : ℚ} (h : (m : ℚ) ≤ q) : m ≤ rndHE q := by
  have hf : m ≤ ⌊q⌋ := Int.le_floor.mpr h
  rcases rndHE_cases q with h1 | h1 <;> omega

theorem rndHE_le {n : ℤ} {q : ℚ} (h : q ≤ (n : ℚ)) : rndHE q ≤ n := by
  have hf : ⌊q⌋ ≤ n := by
    have := Int.floor_le_floor h
    simpa using this
  rcases rndHE_cases q with h1 | h1
  · omega
  · have hhalf : (1 : ℚ)/2 ≤ q - ⌊q⌋ := by
      by_contra hc
      push_neg at hc
      unfold rndHE at h1
      rw [if_pos hc] at h1
      omega
    have hlt : (⌊q⌋ : ℚ) < q := by linarith
    have : ⌊q⌋ < n := by
      by_contra hc
      push_neg at hc
      have hn : n ≤ ⌊q⌋ := hc
      have : (n : ℚ) ≤ (⌊q⌋ : ℚ) := by exact_mod_cast hn
      linarith
    omega

theorem le_round2 {m : ℤ} {q : ℚ} (h : (m : ℚ) ≤ q * 100) : (m : ℚ) / 100 ≤ round2 q := by
  unfold round2
  have := le_rndHE h
  have hc : (m : ℚ) ≤ (rndHE (q * 100) : ℚ) := by exact_mod_cast this
  linarith

theorem round2_le {n : ℤ} {q : ℚ} (h : q * 100 ≤ (n : ℚ)) : round2 q ≤ (n : ℚ) / 100 := by
  unfold round2
  have := rndHE_le h
  have hc : ((rndHE (q * 100) : ℤ) : ℚ) ≤ (n : ℚ) := by exact_mod_cast this
  linarith

/-- Bounds of the first component of `applyAdjust`. -/
theorem applyAdjust_fst_mem (tr fr aj : ℚ) :
    0 ≤ (applyAdjust tr fr aj).1 ∧ (applyAdjust tr fr aj).1 ≤ 60 := by
  unfold applyAdjust
  set y := max 0 (min 60 (tr * (max (3/10) (min (3/2) aj)))) with hy
  have h0 : 0 ≤ y := le_max_left _ _
  have h60 : y ≤ 60 := by
    rw [hy]
    apply max_le
    · norm_num
    · exact le_trans (min_le_left _ _) (le_refl 60)
  constructor
  · have := le_round2 (m := 0) (q := y) (by push_cast; linarith)
    simpa using this
  · have := round2_le (n := 6000) (q := y) (by push_cast; linarith)
    have he : ((6000 : ℤ) : ℚ) / 100 = 60 := by norm_num
    rw [he] at this
    exact this

/-- Bounds of the second component of `applyAdjust`. -/
theorem applyAdjust_snd_mem (tr fr aj : ℚ) :
    1/2 ≤ (applyAdjust tr fr aj).2 ∧ (applyAdjust tr fr aj).2 ≤ 4 := by
  unfold applyAdjust
  set y := max (1/2) (min 4 (fr * (85/100 + 3/10 * (max (3/10) (min (3/2) aj))))) with hy
  have h0 : 1/2 ≤ y := le_max_left _ _
  have h4 : y ≤ 4 := by
    rw [hy]
    apply max_le
    · norm_num
    · exact min_le_left _ _
  constructor
  · have := le_round2 (m := 50) (q := y) (by push_cast; linarith)
    have he : ((50 : ℤ) : ℚ) / 100 = 1/2 := by norm_num
    rw [he] at this
    exact this
  · have := round2_le (n := 400) (q := y) (by push_cast; linarith)
    have he : ((400 : ℤ) : ℚ) / 100 = 4 := by norm_num
    rw [he] at this
    exact this

theorem cacheLookup_mem {k : CacheKey} {v : OutT} : ∀ {c : Cache},
    cacheLookup k c = some v → (k, v) ∈ c := by
  intro c
  induction c with
  | nil => intro h; simp [cacheLookup] at h
  | cons e rest ih =>
    obtain ⟨k2, v2⟩ := e
    intro h
    unfold cacheLookup at h
    by_cases he : k = k2
    · rw [if_pos he] at h
      injection h with h
      subst he
      subst h
      exact List.mem_cons_self _ _
    · rw [if_neg he] at h
      exact List.mem_cons_of_mem _ (ih h)

theorem cacheLookup_append_right {k : CacheKey} {v : OutT} : ∀ {c : Cache},
    cacheLookup k c = none → cacheLookup k (c ++ [(k, v)]) = some v := by
  intro c
  induction c with
  | nil => intro _; simp [cacheLookup]
  | cons e rest ih =>
    obtain ⟨k2, v2⟩ := e
    intro h
    unfold cacheLookup at h
    rw [List.cons_append]
    unfold cacheLookup
    by_cases he : k = k2
    · rw [if_pos he] at h
      exact absurd h (by simp)
    · rw [if_neg he] at h ⊢
      exact ih h

theorem degs85 : mkDegs 22 60 85 80 8 =
    ⟨0, 14/15, 0, 0, 0, 1/2, 0, 0, 1, 0, 0, 1, 1, 0, 0⟩ := by decide

theorem degs10 : mkDegs 22 60 10 80 8 =
    ⟨0, 14/15, 0, 0, 0, 1/2, 1, 0, 0, 0, 0, 1, 1, 0, 0⟩ := by decide

theorem degsDeg : mkDegs 20 40 70 50 20 =
    ⟨0, 2/3, 0, 0, 1, 0, 0, 0, 1, 0, 1, 0, 0, 1, 0⟩ := by decide

theorem aggT85_simp (x : ℚ) : aggTime (mkDegs 22 60 85 80 8) x =
    max (muTnulo x) (min (1/2) (muTcorto x)) := by
  have h1 : cutTnulo (mkDegs 22 60 85 80 8) = 1 := by decide
  have h2 : cutTcorto (mkDegs 22 60 85 80 8) = 1/2 := by decide
  have h3 : cutTmedio (mkDegs 22 60 85 80 8) = 0 := by decide
  have h4 : cutTlargo (mkDegs 22 60 85 80 8) = 0 := by decide
  have hn1 : muTnulo x ≤ 1 := trapmfQ_le_one _ _ _ _ _
  have hc : 0 ≤ muTcorto x := trapmfQ_nonneg _ _ _ _ _
  have hm : 0 ≤ muTmedio x := trapmfQ_nonneg _ _ _ _ _
  have hl : 0 ≤ muTlargo x := trapmfQ_nonneg _ _ _ _ _
  rw [aggTime_eq_cuts]
  unfold aggTimeCuts
  rw [h1, h2, h3, h4, min_eq_right hn1, min_eq_left hm, min_eq_left hl,
    max_self, max_eq_left (le_min (by norm_num) hc)]

theorem aggF85_simp (x : ℚ) : aggFreq (mkDegs 22 60 85 80 8) x = muFbaja x := by
  have h1 : cutFbaja (mkDegs 22 60 85 80 8) = 1 := by decide
  have h2 : cutFmedia (mkDegs 22 60 85 80 8) = 0 := by decide
  have h3 : cutFalta (mkDegs 22 60 85 80 8) = 0 := by decide
  have hb0 : 0 ≤ muFbaja x := trapmfQ_nonneg _ _ _ _ _
  have hb1 : muFbaja x ≤ 1 := trapmfQ_le_one _ _ _ _ _
  have hm : 0 ≤ muFmedia x := trapmfQ_nonneg _ _ _ _ _
  have ha : 0 ≤ muFalta x := trapmfQ_nonneg _ _ _ _ _
  rw [aggFreq_eq_cuts]
  unfold aggFreqCuts
  rw [h1, h2, h3, min_eq_right hb1, min_eq_left hm, min_eq_left ha, max_self,
    max_eq_left hb0]

theorem aggT10_simp (x : ℚ) : aggTime (mkDegs 22 60 10 80 8) x = min (1/2) (muTcorto x) := by
  have h1 : cutTnulo (mkDegs 22 60 10 80 8) = 0 := by decide
  have h2 : cutTcorto (mkDegs 22 60 10 80 8) = 1/2 := by decide
  have h3 : cutTmedio (mkDegs 22 60 10 80 8) = 0 := by decide
  have h4 : cutTlargo (mkDegs 22 60 10 80 8) = 0 := by decide
  have hn : 0 ≤ muTnulo x := trapmfQ_nonneg _ _ _ _ _
  have hc : 0 ≤ muTcorto x := trapmfQ_nonneg _ _ _ _ _
  have hm : 0 ≤ muTmedio x := trapmfQ_nonneg _ _ _ _ _
  have hl : 0 ≤ muTlargo x := trapmfQ_nonneg _ _ _ _ _
  rw [aggTime_eq_cuts]
  unfold aggTimeCuts
  rw [h1, h2, h3, h4, min_eq_left hn, min_eq_left hm, min_eq_left hl,
    max_self, max_eq_left (le_min (by norm_num) hc),
    max_eq_right (le_min (by norm_num) hc)]

theorem aggF10_simp (x : ℚ) : aggFreq (mkDegs 22 60 10 80 8) x = max (muFbaja x) (muFmedia x) := by
  have h1 : cutFbaja (mkDegs 22 60 10 80 8) = 1 := by decide
  have h2 : cutFmedia (mkDegs 22 60 10 80 8) = 1 := by decide
  have h3 : cutFalta (mkDegs 22 60 10 80 8) = 0 := by decide
  have hm0 : 0 ≤ muFmedia x := trapmfQ_nonneg _ _ _ _ _
  have hb1 : muFbaja x ≤ 1 := trapmfQ_le_one _ _ _ _ _
  have hm1 : muFmedia x ≤ 1 := trapmfQ_le_one _ _ _ _ _
  have ha : 0 ≤ muFalta x := trapmfQ_nonneg _ _ _ _ _
  rw [aggFreq_eq_cuts]
  unfold aggFreqCuts
  rw [h1, h2, h3, min_eq_right hb1, min_eq_right hm1, min_eq_left ha,
    max_eq_left hm0]

theorem sumT85 : gridSum (fun i => aggTime (mkDegs 22 60 85 80 8) (timePt i)) 601 = 2203/20 := by
  simp only [aggT85_simp]
  rw [gridSum601]
  decide

theorem momT85 : gridSum (fun i => timePt i * aggTime (mkDegs 22 60 85 80 8) (timePt i)) 601 = 180719/200 := by
  simp only [aggT85_simp]
  rw [gridSum601]
  decide

theorem sumF85 : gridSum (fun i => aggFreq (mkDegs 22 60 85 80 8) (freqPt i)) 401 = 75 := by
  simp only [aggF85_simp]
  rw [gridSum401]
  decide

theorem momF85 : gridSum (fun i => freqPt i * aggFreq (mkDegs 22 60 85 80 8) (freqPt i)) 401 = 75 := by
  simp only [aggF85_simp]
  rw [gridSum401]
  decide

theorem sumT10 : gridSum (fun i => aggTime (mkDegs 22 60 10 80 8) (timePt i)) 601 = 145/2 := by
  simp only [aggT10_simp]
  rw [gridSum601]
  decide

theorem momT10 : gridSum (fun i => timePt i * aggTime (mkDegs 22 60 10 80 8) (timePt i)) 601 = 3335/4 := by
  simp only [aggT10_simp]
  rw [gridSum601]
  decide

theorem sumF10 : gridSum (fun i => aggFreq (mkDegs 22 60 10 80 8) (freqPt i)) 401 = 7917/50 := by
  simp only [aggF10_simp]
  rw [gridSum401]
  decide

theorem momF10 : gridSum (fun i => freqPt i * aggFreq (mkDegs 22 60 10 80 8) (freqPt i)) 401 = 1143563/5000 := by
  simp only [aggF10_simp]
  rw [gridSum401]
  decide

theorem centT85 : centroidQ 601 timePt (aggTime (mkDegs 22 60 85 80 8)) = some (180719/22030) := by
  unfold centroidQ
  rw [sumT85, momT85]
  norm_num

theorem centF85 : centroidQ 401 freqPt (aggFreq (mkDegs 22 60 85 80 8)) = some 1 := by
  unfold centroidQ
  rw [sumF85, momF85]
  norm_num

theorem centT10 : centroidQ 601 timePt (aggTime (mkDegs 22 60 10 80 8)) = some (23/2) := by
  unfold centroidQ
  rw [sumT10, momT10]
  norm_num

theorem centF10 : centroidQ 401 freqPt (aggFreq (mkDegs 22 60 10 80 8)) = some (1143563/791700) := by
  unfold centroidQ
  rw [sumF10, momF10]
  norm_num

theorem simCompute_eq_some (t s r a w ct cf : ℚ)
    (h1 : centroidQ 601 timePt (aggTime (mkDegs t s r a w)) = some ct)
    (h2 : centroidQ 401 freqPt (aggFreq (mkDegs t s r a w)) = some cf) :
    simCompute t s r a w = some (ct, cf) := by
  unfold simCompute
  rw [h1, h2]

theorem simCompute_eq_none (t s r a w : ℚ)
    (h2 : centroidQ 401 freqPt (aggFreq (mkDegs t s r a w)) = none) :
    simCompute t s r a w = none := by
  unfold simCompute
  rw [h2]
  cases centroidQ 601 timePt (aggTime (mkDegs t s r a w)) <;> rfl

/-- Crisp outputs of the pipeline at `(22, 60, 85, 80, 8)`. -/
theorem simA : simCompute 22 60 85 80 8 = some (180719/22030, 1) :=
  simCompute_eq_some 22 60 85 80 8 _ _ centT85 centF85

/-- Crisp outputs of the pipeline at `(22, 60, 10, 80, 8)`. -/
theorem simB : simCompute 22 60 10 80 8 = some (23/2, 1143563/791700) :=
  simCompute_eq_some 22 60 10 80 8 _ _ centT10 centF10

/-- At `(20, 40, 70, 50, 20)` every rule that assigns `frecuencia` has
firing strength zero, so the aggregated frequency curve is identically
zero. -/
theorem aggFreq_deg_zero (x : ℚ) : aggFreq (mkDegs 20 40 70 50 20) x = 0 := by
  have h1 : cutFbaja (mkDegs 20 40 70 50 20) = 0 := by decide
  have h2 : cutFmedia (mkDegs 20 40 70 50 20) = 0 := by decide
  have h3 : cutFalta (mkDegs 20 40 70 50 20) = 0 := by decide
  have hb : 0 ≤ muFbaja x := trapmfQ_nonneg _ _ _ _ _
  have hm : 0 ≤ muFmedia x := trapmfQ_nonneg _ _ _ _ _
  have ha : 0 ≤ muFalta x := trapmfQ_nonneg _ _ _ _ _
  rw [aggFreq_eq_cuts]
  unfold aggFreqCuts
  rw [h1, h2, h3, min_eq_left hb, min_eq_left hm, min_eq_left ha, max_self, max_self]

/-- The degenerate input: the pipeline produces no output pair. -/
theorem simDeg : simCompute 20 40 70 50 20 = none := by
  apply simCompute_eq_none
  unfold centroidQ
  have hz : (fun i => aggFreq (mkDegs 20 40 70 50 20) (freqPt i)) = fun _ => (0 : ℚ) := by
    funext i
    exact aggFreq_deg_zero _
  rw [hz, gridSum_zero_fn]
  simp

theorem cacheLookup_tail_none {k : CacheKey} {c : Cache}
    (h : cacheLookup k c = none) : cacheLookup k c.tail = none := by
  cases c with
  | nil => rfl
  | cons e rest =>
    obtain ⟨k2, v2⟩ := e
    unfold cacheLookup at h
    by_cases he : k = k2
    · rw [if_pos he] at h
      exact absurd h (by simp)
    · rw [if_neg he] at h
      exact h

theorem calculate_irrigation_hit (cache : Cache) (t s r a w aj : ℚ) (res : OutT)
    (h : cacheLookup (quantKey t s r a w aj) cache = some res) :
    calculate_irrigation cache t s r a w aj = (res, cache) := by
  unfold calculate_irrigation
  rw [h]

theorem calculate_irrigation_fallback (cache : Cache) (t s r a w aj : ℚ)
    (h1 : cacheLookup (quantKey t s r a w aj) cache = none)
    (h2 : simCompute t s r a w = none) :
    calculate_irrigation cache t s r a w aj = ((15, 2, []), cache) := by
  unfold calculate_irrigation
  rw [h1, h2]

theorem calculate_irrigation_normal (cache : Cache) (t s r a w aj tr fr : ℚ)
    (h1 : cacheLookup (quantKey t s r a w aj) cache = none)
    (h2 : simCompute t s r a w = some (tr, fr)) :
    calculate_irrigation cache t s r a w aj =
      (((applyAdjust tr fr aj).1, (applyAdjust tr fr aj).2,
        get_rule_activations t s r a w),
       (if 100 ≤ cache.length then cache.tail else cache) ++
         [(quantKey t s r a w aj,
           ((applyAdjust tr fr aj).1, (applyAdjust tr fr aj).2,
            get_rule_activations t s r a w))]) := by
  unfold calculate_irrigation
  rw [h1, h2]

/-- C1 counterexample: at `(20, 40, 70, 50, 20)` the fuzzy pipeline is
degenerate, so `calculate_irrigation` returns the empty activation map
while `get_rule_activations` returns the full 33-entry map — the two are
not identical on the fallback path. -/
theorem C1_counterexample :
    (calculate_irrigation [] 20 40 70 50 20 1).1.2.2 ≠
      get_rule_activations 20 40 70 50 20 := by
  rw [calculate_irrigation_fallback [] 20 40 70 50 20 1 rfl simDeg]
  decide

/-- C1 (amended): on every cache-miss call on which the fuzzy pipeline
produces an output pair, the activation map inside the result of
`calculate_irrigation` is exactly the map returned by
`get_rule_activations` on the same five readings. -/
theorem C1_activations_consistency (cache : Cache) (t s r a w aj tr fr : ℚ)
    (h1 : cacheLookup (quantKey t s r a w aj) cache = none)
    (h2 : simCompute t s r a w = some (tr, fr)) :
    (calculate_irrigation cache t s r a w aj).1.2.2 =
      get_rule_activations t s r a w := by
  rw [calculate_irrigation_normal cache t s r a w aj tr fr h1 h2]

theorem C1_activations_consistency_witness :
    cacheLookup (quantKey 22 60 85 80 8 1) [] = none ∧
    simCompute 22 60 85 80 8 = some (180719/22030, 1) ∧
    (calculate_irrigation [] 22 60 85 80 8 1).1.2.2 =
      get_rule_activations 22 60 85 80 8 :=
  ⟨rfl, simA, C1_activations_consistency [] 22 60 85 80 8 1 _ _ rfl simA⟩

/-- C2: for every cache whose stored triples are in bounds and every input,
the returned duration lies in `[0, 60]`, the returned frequency lies in
`[0.5, 4]`, and the updated cache again stores only in-bounds triples. -/
theorem C2_output_bounds (cache : Cache) (hc : CacheOK cache) (t s r a w aj : ℚ) :
    OutOK (calculate_irrigation cache t s r a w aj).1 ∧
    CacheOK (calculate_irrigation cache t s r a w aj).2 := by
  rcases hl : cacheLookup (quantKey t s r a w aj) cache with _ | res
  · rcases hs : simCompute t s r a w with _ | ⟨tr, fr⟩
    · rw [calculate_irrigation_fallback cache t s r a w aj hl hs]
      exact ⟨⟨by norm_num, by norm_num, by norm_num, by norm_num⟩, hc⟩
    · rw [calculate_irrigation_normal cache t s r a w aj tr fr hl hs]
      constructor
      · exact ⟨(applyAdjust_fst_mem tr fr aj).1, (applyAdjust_fst_mem tr fr aj).2,
          (applyAdjust_snd_mem tr fr aj).1, (applyAdjust_snd_mem tr fr aj).2⟩
      · intro e he
        rcases List.mem_append.mp he with hin | hnew
        · have hmem : e ∈ cache := by
            by_cases h100 : 100 ≤ cache.length
            · rw [if_pos h100] at hin
              exact List.mem_of_mem_tail hin
            · rw [if_neg h100] at hin
              exact hin
          exact hc e hmem
        · have he2 : e = (quantKey t s r a w aj,
              ((applyAdjust tr fr aj).1, (applyAdjust tr fr aj).2,
               get_rule_activations t s r a w)) := by
            simpa using hnew
          rw [he2]
          exact ⟨(applyAdjust_fst_mem tr fr aj).1, (applyAdjust_fst_mem tr fr aj).2,
            (applyAdjust_snd_mem tr fr aj).1, (applyAdjust_snd_mem tr fr aj).2⟩
  · rw [calculate_irrigation_hit cache t s r a w aj res hl]
    exact ⟨hc (quantKey t s r a w aj, res) (cacheLookup_mem hl), hc⟩

theorem C2_output_bounds_witness :
    CacheOK [] ∧
    (OutOK (calculate_irrigation [] 25 60 30 50 10 1).1 ∧
     CacheOK (calculate_irrigation [] 25 60 30 50 10 1).2) :=
  ⟨fun e he => absurd he (List.not_mem_nil e),
   C2_output_bounds [] (fun e he => absurd he (List.not_mem_nil e)) 25 60 30 50 10 1⟩

/-- C3: on a cache miss on which the fuzzy pipeline yields no output pair
(missing consequent output or internal fault, both modelled as `none`),
`calculate_irrigation` returns the safe default `(15, 2, {})` instead of
propagating an error. -/
theorem C3_fallback_safe_default (cache : Cache) (t s r a w aj : ℚ)
    (h1 : cacheLookup (quantKey t s r a w aj) cache = none)
    (h2 : simCompute t s r a w = none) :
    (calculate_irrigation cache t s r a w aj).1 = (15, 2, []) := by
  rw [calculate_irrigation_fallback cache t s r a w aj h1 h2]

theorem C3_fallback_safe_default_witness :
    cacheLookup (quantKey 20 40 70 50 20 1) [] = none ∧
    simCompute 20 40 70 50 20 = none ∧
    (calculate_irrigation [] 20 40 70 50 20 1).1 = (15, 2, []) :=
  ⟨rfl, simDeg, C3_fallback_safe_default [] 20 40 70 50 20 1 rfl simDeg⟩

/-- C4: on the normal path the returned duration equals the raw duration
times `clamp(plant_adjustment, 0.3, 1.5)`, clamped to `[0, 60]` and rounded
to 2 decimals, and the returned frequency equals the raw frequency times
`0.85 + 0.3 * clamp(plant_adjustment, 0.3, 1.5)`, clamped to `[0.5, 4]` and
rounded to 2 decimals. -/
theorem C4_plant_adjustment (cache : Cache) (t s r a w aj tr fr : ℚ)
    (h1 : cacheLookup (quantKey t s r a w aj) cache = none)
    (h2 : simCompute t s r a w = some (tr, fr)) :
    (calculate_irrigation cache t s r a w aj).1.1 =
      round2 (max 0 (min 60 (tr * specClamp (3/10) (3/2) aj))) ∧
    (calculate_irrigation cache t s r a w aj).1.2.1 =
      round2 (max (1/2) (min 4 (fr * (85/100 + 3/10 * specClamp (3/10) (3/2) aj)))) := by
  rw [calculate_irrigation_normal cache t s r a w aj tr fr h1 h2]
  exact ⟨rfl, rfl⟩

theorem C4_plant_adjustment_witness :
    cacheLookup (quantKey 22 60 85 80 8 1) [] = none ∧
    simCompute 22 60 85 80 8 = some (180719/22030, 1) ∧
    ((calculate_irrigation [] 22 60 85 80 8 1).1.1 =
      round2 (max 0 (min 60 ((180719/22030) * specClamp (3/10) (3/2) 1))) ∧
     (calculate_irrigation [] 22 60 85 80 8 1).1.2.1 =
      round2 (max (1/2) (min 4 (1 * (85/100 + 3/10 * specClamp (3/10) (3/2) 1))))) :=
  ⟨rfl, simA, C4_plant_adjustment [] 22 60 85 80 8 1 _ _ rfl simA⟩

/-- C5: on every call the activation map returned by
`get_rule_activations` has key list exactly `R1, …, R33`, and every
activation value lies in `[0, 1]`. -/
theorem C5_activation_map_wellformed (t s r a w : ℚ) :
    (get_rule_activations t s r a w).map Prod.fst = ruleIds ∧
    ∀ p ∈ get_rule_activations t s r a w, 0 ≤ p.2 ∧ p.2 ≤ 1 := by
  obtain ⟨h1, h2, h3, h4, h5, h6, h7, h8, h9, h10, h11, h12, h13, h14, h15⟩ :=
    mkDegs_mem01 t s r a w
  constructor
  · rfl
  · simp only [get_rule_activations, List.forall_mem_cons, List.forall_mem_nil,
      and_true]
    exact ⟨h9, min_mem01 h6 h9, min_mem01 h4 h7, min_mem01 h3 h4,
      min_mem01 h10 h4, min_mem01 h4 h15,
      min_mem01 (min_mem01 (min_mem01 h4 h3) h7) h15, h6,
      min_mem01 h1 h12, min_mem01 h5 h8, min_mem01 h12 h8, min_mem01 h1 h9,
      min_mem01 h15 h3, min_mem01 h15 h7, min_mem01 h3 h14, min_mem01 h10 h15,
      min_mem01 h2 h5, min_mem01 (min_mem01 h3 h10) h13, min_mem01 h5 h13,
      min_mem01 h11 h7, min_mem01 h2 h7, min_mem01 h13 h7,
      min_mem01 (min_mem01 h2 h11) h8, min_mem01 h1 h5, min_mem01 h8 h14,
      min_mem01 (min_mem01 h3 h8) h15, min_mem01 (min_mem01 h2 h10) h4,
      min_mem01 h3 h12, min_mem01 (min_mem01 h4 h10) h8,
      min_mem01 (min_mem01 h5 h12) h7, min_mem01 h6 h3, min_mem01 h15 h10,
      min_mem01 h13 h12, fun x hx => absurd hx (List.not_mem_nil x)⟩

theorem le_foldl_max (l : List ℚ) (acc : ℚ) : acc ≤ l.foldl max acc := by
  induction l generalizing acc with
  | nil => exact le_refl acc
  | cons x xs ih => exact le_trans (le_max_left acc x) (ih (max acc x))

theorem foldl_max_le (l : List ℚ) (acc b : ℚ) (ha : acc ≤ b)
    (hl : ∀ x ∈ l, x ≤ b) : l.foldl max acc ≤ b := by
  induction l generalizing acc with
  | nil => exact ha
  | cons x xs ih =>
    exact ih (max acc x) (max_le ha (hl x (List.mem_cons_self x xs)))
      (fun y hy => hl y (List.mem_cons_of_mem _ hy))

/-- C6: the confidence estimator of the engine implements Policy A — it equals
the spec formula `round(0.6·max + 0.4·(card of values above 0.5 / N), 2)`,
returns 0 on the empty map, and on maps whose values lie in `[0, 1]` its
result lies in `[0, 1]`. -/
theorem C6_confidence_policy_a (m : List (String × ℚ))
    (hv : ∀ p ∈ m, 0 ≤ p.2 ∧ p.2 ≤ 1) :
    calculate_confidence m = policyA (m.map Prod.snd) ∧
    (m = [] → calculate_confidence m = 0) ∧
    (0 ≤ calculate_confidence m ∧ calculate_confidence m ≤ 1) := by
  refine ⟨?_, ?_, ?_⟩
  · unfold calculate_confidence policyA
    cases m.map Prod.snd <;> rfl
  · intro h
    subst h
    rfl
  · rcases hm : m.map Prod.snd with _ | ⟨v, vs⟩
    · unfold calculate_confidence
      rw [hm]
      norm_num
    · have hall : ∀ x ∈ v :: vs, 0 ≤ x ∧ x ≤ 1 := by
        intro x hx
        rw [← hm] at hx
        obtain ⟨p, hp, hpx⟩ := List.mem_map.mp hx
        rw [← hpx]
        exact hv p hp
      have hv0 : 0 ≤ v := (hall v (List.mem_cons_self v vs)).1
      have hmax0 : 0 ≤ (v :: vs).foldl max v := le_trans hv0 (le_foldl_max _ v)
      have hmax1 : (v :: vs).foldl max v ≤ 1 :=
        foldl_max_le _ v 1 (hall v (List.mem_cons_self v vs)).2
          (fun x hx => (hall x hx).2)
      have hflt : (((v :: vs).filter (fun u => decide (1/2 < u))).length : ℚ) ≤
          ((v :: vs).length : ℚ) := by
        exact_mod_cast List.length_filter_le _ _
      have hlen0 : (0 : ℚ) < ((v :: vs).length : ℚ) := by
        simp [List.length_cons]
        positivity
      have hp0 : (0 : ℚ) ≤
          (((v :: vs).filter (fun u => decide (1/2 < u))).length : ℚ) /
            ((v :: vs).length : ℚ) := by positivity
      have hp1 : (((v :: vs).filter (fun u => decide (1/2 < u))).length : ℚ) /
          ((v :: vs).length : ℚ) ≤ 1 := by
        rw [div_le_one hlen0]
        exact hflt
      have hq0 : 0 ≤ 4/10 *
          (((v :: vs).filter (fun u => decide (1/2 < u))).length : ℚ) /
            ((v :: vs).length : ℚ) := by positivity
      have hq1 : 4/10 *
          (((v :: vs).filter (fun u => decide (1/2 < u))).length : ℚ) /
            ((v :: vs).length : ℚ) ≤ 4/10 := by
        rw [mul_div_assoc]
        have h := mul_le_mul_of_nonneg_left hp1 (by norm_num : (0 : ℚ) ≤ 4/10)
        simpa using h
      unfold calculate_confidence
      rw [hm]
      constructor
      · have := le_round2 (m := 0)
          (q := 6/10 * ((v :: vs).foldl max v) +
            4/10 * (((v :: vs).filter (fun u => decide (1/2 < u))).length : ℚ) /
              ((v :: vs).length : ℚ))
          (by push_cast; linarith)
        simpa using this
      · have := round2_le (n := 100)
          (q := 6/10 * ((v :: vs).foldl max v) +
            4/10 * (((v :: vs).filter (fun u => decide (1/2 < u))).length : ℚ) /
              ((v :: vs).length : ℚ))
          (by push_cast; linarith)
        have he : ((100 : ℤ) : ℚ) / 100 = 1 := by norm_num
        rw [he] at this
        exact this

theorem C6_confidence_policy_a_witness :
    (∀ p ∈ [("R1", (1/2 : ℚ))], 0 ≤ p.2 ∧ p.2 ≤ 1) ∧
    (calculate_confidence [("R1", (1/2 : ℚ))] =
        policyA ([("R1", (1/2 : ℚ))].map Prod.snd) ∧
      ([("R1", (1/2 : ℚ))] = ([] : List (String × ℚ)) →
        calculate_confidence [("R1", (1/2 : ℚ))] = 0) ∧
      (0 ≤ calculate_confidence [("R1", (1/2 : ℚ))] ∧
        calculate_confidence [("R1", (1/2 : ℚ))] ≤ 1)) :=
  ⟨by decide, C6_confidence_policy_a [("R1", (1/2 : ℚ))] (by decide)⟩

/-- C7: starting from a cache of at most 100 entries the cache never
exceeds 100 entries; a call whose quantized key is present returns the
stored triple and leaves the cache unchanged; and when the cache is full on
a computing miss, the oldest-inserted entry (the head) is evicted and the
new entry appended (FIFO). -/
theorem C7_cache_discipline (cache : Cache) (t s r a w aj : ℚ)
    (h100 : cache.length ≤ 100) :
    (calculate_irrigation cache t s r a w aj).2.length ≤ 100 ∧
    (∀ res, cacheLookup (quantKey t s r a w aj) cache = some res →
      calculate_irrigation cache t s r a w aj = (res, cache)) ∧
    (∀ tr fr, cacheLookup (quantKey t s r a w aj) cache = none →
      simCompute t s r a w = some (tr, fr) → 100 ≤ cache.length →
      (calculate_irrigation cache t s r a w aj).2 =
        cache.tail ++ [(quantKey t s r a w aj,
          (calculate_irrigation cache t s r a w aj).1)]) := by
  refine ⟨?_, ?_, ?_⟩
  · rcases hl : cacheLookup (quantKey t s r a w aj) cache with _ | res
    · rcases hs : simCompute t s r a w with _ | ⟨tr, fr⟩
      · rw [calculate_irrigation_fallback cache t s r a w aj hl hs]
        exact h100
      · rw [calculate_irrigation_normal cache t s r a w aj tr fr hl hs]
        by_cases hfull : 100 ≤ cache.length
        · rw [if_pos hfull]
          simp only [List.length_append, List.length_tail, List.length_cons,
            List.length_nil]
          omega
        · rw [if_neg hfull]
          simp only [List.length_append, List.length_cons, List.length_nil]
          omega
    · rw [calculate_irrigation_hit cache t s r a w aj res hl]
      exact h100
  · intro res hres
    exact calculate_irrigation_hit cache t s r a w aj res hres
  · intro tr fr hl hs hfull
    rw [calculate_irrigation_normal cache t s r a w aj tr fr hl hs, if_pos hfull]

theorem C7_cache_discipline_witness :
    ([] : Cache).length ≤ 100 ∧
    ((calculate_irrigation [] 27 55 20 45 12 1).2.length ≤ 100 ∧
     (∀ res, cacheLookup (quantKey 27 55 20 45 12 1) [] = some res →
       calculate_irrigation [] 27 55 20 45 12 1 = (res, [])) ∧
     (∀ tr fr, cacheLookup (quantKey 27 55 20 45 12 1) [] = none →
       simCompute 27 55 20 45 12 = some (tr, fr) → 100 ≤ ([] : Cache).length →
       (calculate_irrigation [] 27 55 20 45 12 1).2 =
         ([] : Cache).tail ++ [(quantKey 27 55 20 45 12 1,
           (calculate_irrigation [] 27 55 20 45 12 1).1)])) :=
  ⟨by decide, C7_cache_discipline [] 27 55 20 45 12 1 (by decide)⟩

/-- C8: with temperature 22, soil humidity 60, air humidity 80, wind 8 and
plant adjustment 1 fixed, the duration returned at rain probability 85 is
strictly below the duration returned at rain probability 10. -/
theorem C8_rain_suppression :
    (calculate_irrigation [] 22 60 85 80 8 1).1.1 <
      (calculate_irrigation [] 22 60 10 80 8 1).1.1 := by
  rw [calculate_irrigation_normal [] 22 60 85 80 8 1 _ _ rfl simA,
    calculate_irrigation_normal [] 22 60 10 80 8 1 _ _ rfl simB]
  decide

/-- C9: two calls whose raw inputs differ but share the quantized cache key
alias in the cache — after a computing first call, the second call is
answered from the cache with exactly the output computed from the
unrounded inputs of the first call. -/
theorem C9_quantization_aliasing (cache : Cache)
    (t1 s1 r1 a1 w1 aj1 t2 s2 r2 a2 w2 aj2 tr fr : ℚ)
    (hne : (t1, s1, r1, a1, w1, aj1) ≠ (t2, s2, r2, a2, w2, aj2))
    (hkey : quantKey t1 s1 r1 a1 w1 aj1 = quantKey t2 s2 r2 a2 w2 aj2)
    (h1 : cacheLookup (quantKey t1 s1 r1 a1 w1 aj1) cache = none)
    (h2 : simCompute t1 s1 r1 a1 w1 = some (tr, fr)) :
    (calculate_irrigation (calculate_irrigation cache t1 s1 r1 a1 w1 aj1).2
        t2 s2 r2 a2 w2 aj2).1 =
      (calculate_irrigation cache t1 s1 r1 a1 w1 aj1).1 := by
  rw [calculate_irrigation_normal cache t1 s1 r1 a1 w1 aj1 tr fr h1 h2]
  have hpre : cacheLookup (quantKey t1 s1 r1 a1 w1 aj1)
      (if 100 ≤ cache.length then cache.tail else cache) = none := by
    split_ifs
    · exact cacheLookup_tail_none h1
    · exact h1
  have hlk : cacheLookup (quantKey t2 s2 r2 a2 w2 aj2)
      ((if 100 ≤ cache.length then cache.tail else cache) ++
        [(quantKey t1 s1 r1 a1 w1 aj1,
          ((applyAdjust tr fr aj1).1, (applyAdjust tr fr aj1).2,
           get_rule_activations t1 s1 r1 a1 w1))]) =
      some ((applyAdjust tr fr aj1).1, (applyAdjust tr fr aj1).2,
        get_rule_activations t1 s1 r1 a1 w1) := by
    rw [← hkey]
    exact cacheLookup_append_right hpre
  rw [calculate_irrigation_hit _ t2 s2 r2 a2 w2 aj2 _ hlk]

theorem C9_quantization_aliasing_witness :
    ((22 : ℚ), (60 : ℚ), (85 : ℚ), (80 : ℚ), (8 : ℚ), (1 : ℚ)) ≠
      (2201/100, 60, 85, 80, 8, 1) ∧
    quantKey 22 60 85 80 8 1 = quantKey (2201/100) 60 85 80 8 1 ∧
    cacheLookup (quantKey 22 60 85 80 8 1) [] = none ∧
    simCompute 22 60 85 80 8 = some (180719/22030, 1) ∧
    (calculate_irrigation (calculate_irrigation [] 22 60 85 80 8 1).2
        (2201/100) 60 85 80 8 1).1 =
      (calculate_irrigation [] 22 60 85 80 8 1).1 :=
  ⟨by decide, by decide, rfl, simA,
   C9_quantization_aliasing [] 22 60 85 80 8 1 (2201/100) 60 85 80 8 1 _ _
     (by decide) (by decide) rfl simA⟩

/-- C10: on the fallback path the returned pair is the constant
`(15, 2)` — independent of the plant adjustment, whose multiplier is never
applied — and the cache is left exactly unchanged. -/
theorem C10_fallback_preserves_state (cache : Cache) (t s r a w aj aj2 : ℚ)
    (h1 : cacheLookup (quantKey t s r a w aj) cache = none)
    (h1b : cacheLookup (quantKey t s r a w aj2) cache = none)
    (h2 : simCompute t s r a w = none) :
    calculate_irrigation cache t s r a w aj = ((15, 2, []), cache) ∧
    calculate_irrigation cache t s r a w aj =
      calculate_irrigation cache t s r a w aj2 := by
  have hA := calculate_irrigation_fallback cache t s r a w aj h1 h2
  have hB := calculate_irrigation_fallback cache t s r a w aj2 h1b h2
  exact ⟨hA, hA.trans hB.symm⟩

theorem C10_fallback_preserves_state_witness :
    cacheLookup (quantKey 20 40 70 50 20 1) [] = none ∧
    cacheLookup (quantKey 20 40 70 50 20 (7/2)) [] = none ∧
    simCompute 20 40 70 50 20 = none ∧
    (calculate_irrigation [] 20 40 70 50 20 1 = ((15, 2, []), []) ∧
     calculate_irrigation [] 20 40 70 50 20 1 =
       calculate_irrigation [] 20 40 70 50 20 (7/2)) :=
  ⟨rfl, rfl, simDeg,
   C10_fallback_preserves_state [] 20 40 70 50 20 1 (7/2) rfl rfl simDeg⟩

end FuzzyIrrigation
